import Mathlib

/-!
# predict_MELT: the evaluation driver `predict.c`

A shallow embedding of the driver of the variable-order prediction program:
`neighboring_ap`, `get_char_type` and its helpers, `predict_test` and
`initialize_options`, followed by theorems about them.

Conventions of the embedding.

* `SYMBOL_TYPE` values, array indices and the `int` counters of `predict_test`
  are natural numbers.  The counters are incremented at most once per candidate
  of a scored position, so no wrap-around is modelled.
* Reading a C array outside its bounds, or passing a null pointer to a string
  routine, has no defined result: the embedding returns `none`
  (respectively `OptionsOutcome.undefined`).
* The headers `mapping.h`, `model.h` and `string16.h` are not part of the
  translated sources.  The tables and constants of `mapping.h` are the fields
  of `Mapping`; `predict_next` of the model is a parameter of `predict_test`.
-/

namespace PredictMELT

/-! ## Constants of `predict.h` -/

def NO_FUNCTION : Nat := 0
def PREDICT_TEST : Nat := 1
def LOGLOSS_EVAL : Nat := 2

def NONE : Nat := 0
def LOCSTRINGS : Nat := 1
def LOCTIMESTRINGS : Nat := 2
def BOXSTRINGS : Nat := 3
def BINBOXSTRINGS : Nat := 4
def BINDOWTS : Nat := 5

def LOC : Int := 0
def STRT : Int := 1
def DUR : Int := 2
def DELIM : Int := 3

/-! ## The tables of `mapping.h` -/

/-- The contents of `mapping.h` that `predict.c` reads: the table `ap_map`,
the two-dimensional table `ap_neighbors` (one row per entry of `ap_map`) and
the symbol ranges used by `get_binboxstring_type` and `get_bindowts_type`. -/
structure Mapping where
  ap_map : List Nat
  ap_neighbors : List (List Nat)
  INITIAL_START_TIME : Nat
  FINAL_START_TIME : Nat
  INITIAL_DURATION : Nat
  FINAL_DURATION : Nat
  INITIAL_LOCATION : Nat
  FINAL_LOCATION : Nat

/-- The shape `neighboring_ap` relies on: `ap_map` has the 525 entries the
search loop reads, `ap_neighbors` has a row for each of them, and every row
holds a 0 terminator. -/
def Mapping.WellFormed (m : Mapping) : Prop :=
  m.ap_map.length = 525 ∧ m.ap_neighbors.length = 525 ∧ ∀ row ∈ m.ap_neighbors, 0 ∈ row

/-! ## `neighboring_ap` -/

/-- The search loop of `neighboring_ap`,
`for (i=0; i < 525; i++) if (ap_map[i] == actual_ap) { actual_ap_number = i; break; }`,
entered at index `i` with the entries `ap_map[i]`, `ap_map[i+1]`, ... still
ahead.  `some (some k)`: the loop left through `break` with
`actual_ap_number = k`; `some none`: the loop ended with `i == 525`; `none`:
the table ended before index 525, a read outside `ap_map`. -/
def find_ap_number (actual_ap : Nat) : List Nat → Nat → Option (Option Nat)
  | [], i => if i < 525 then none else some none
  | v :: rest, i =>
    if i < 525 then
      if v = actual_ap then some (some i)
      else find_ap_number actual_ap rest (i + 1)
    else some none

/-- The scan of one row of `ap_neighbors`,
`while (row[i] != 0) { if (row[i] == predicted_ap) return TRUE; i++; } return FALSE;`,
on the part of the row from index `i` on.  Running past the end of the row
without meeting a 0 is a read outside the table (`none`). -/
def scan_neighbors (predicted_ap : Nat) : List Nat → Option Bool
  | [] => none
  | x :: rest =>
    if x = 0 then some false
    else if x = predicted_ap then some true
    else scan_neighbors predicted_ap rest

/-- The function `neighboring_ap (predicted_ap, actual_ap)`.  The error message printed when
`actual_ap` is not in `ap_map` is not part of the result. -/
def neighboring_ap (m : Mapping) (predicted_ap actual_ap : Nat) : Option Bool :=
  match find_ap_number actual_ap m.ap_map 0 with
  | none => none
  | some none => some false
  | some (some actual_ap_number) =>
    match m.ap_neighbors.get? actual_ap_number with
    | none => none
    | some row => scan_neighbors predicted_ap row

/-! ## The symbol classifiers -/

/-- The function `get_locstring_type`: a colon is a delimiter, anything else a location. -/
def get_locstring_type (symbol : Nat) : Int :=
  if symbol = Char.toNat ':' then DELIM else LOC

/-- The function `get_boxstring_type`: the type is read off the index modulo 6. -/
def get_boxstring_type (index_into_input_string : Nat) : Int :=
  match index_into_input_string % 6 with
  | 0 => STRT
  | 1 => STRT
  | 2 => LOC
  | 3 => LOC
  | 4 => DUR
  | 5 => DUR
  | _ => -1

/-- The static table `types` of `get_loctimestring_type`. -/
def types : List Int := [LOC, STRT, STRT, STRT, STRT, DUR, DUR, DUR, DUR]

/-- The function `get_loctimestring_type`.  Its static variable `next_type_index` is passed in and
returned next to the result; `none` is a read outside `types`. -/
def get_loctimestring_type (next_type_index : Nat) (symbol : Nat) : Option (Int × Nat) :=
  if symbol = Char.toNat '}' ∨ symbol = Char.toNat ':' ∨
      symbol = Char.toNat '~' ∨ symbol = Char.toNat ';' then
    some (DELIM, next_type_index)
  else
    match types[next_type_index]? with
    | none => none
    | some result => some (result, (next_type_index + 1) % 9)

/-- The function `get_binboxstring_type`: three range tests, `DELIM` when none applies. -/
def get_binboxstring_type (m : Mapping) (symbol : Nat) : Int :=
  if m.INITIAL_START_TIME ≤ symbol ∧ symbol ≤ m.FINAL_START_TIME then STRT
  else if m.INITIAL_DURATION ≤ symbol ∧ symbol ≤ m.FINAL_DURATION then DUR
  else if m.INITIAL_LOCATION ≤ symbol ∧ symbol ≤ m.FINAL_LOCATION then LOC
  else DELIM

/-- The function `get_bindowts_type`: the day-of-week timeslot ranges. -/
def get_bindowts_type (m : Mapping) (symbol : Nat) : Int :=
  if m.INITIAL_START_TIME ≤ symbol ∧ symbol ≤ 0x25FF then STRT
  else if 0x2620 ≤ symbol ∧ symbol ≤ 0x26FF then LOC
  else DELIM

/-- The function `get_char_type`: dispatch on the global `representation`.  Returns the type and
the value of the static `next_type_index` after the call. -/
def get_char_type (representation : Nat) (m : Mapping) (next_type_index : Nat)
    (symbol : Nat) (index_into_input_string : Nat) : Option (Int × Nat) :=
  if representation = LOCSTRINGS then
    some (get_locstring_type symbol, next_type_index)
  else if representation = BOXSTRINGS then
    some (get_boxstring_type index_into_input_string, next_type_index)
  else if representation = LOCTIMESTRINGS then
    get_loctimestring_type next_type_index symbol
  else if representation = BINBOXSTRINGS then
    some (get_binboxstring_type m symbol, next_type_index)
  else if representation = BINDOWTS then
    some (get_bindowts_type m symbol, next_type_index)
  else
    some (DELIM, next_type_index)

/-! ## The wide-string helpers of `string16.h` -/

/-- Modelled from the spec: `strlen16` of the wide-symbol string utility
(`string16.c` is not among the sources).  A `STRING16` is the list of its
symbols and its length is the number of them. -/
def strlen16 (str : List Nat) : Nat := str.length

/-- Modelled from the spec: `get_symbol` of the wide-symbol string utility,
the symbol at an offset (0, the terminator, past the end). -/
def get_symbol (str : List Nat) (offset : Nat) : Nat := str.getD offset 0

/-- Modelled from the spec: `strncpy16 (dest, src, offset, count)`, the
substring extraction of the wide-symbol string utility: `dest` receives the
`count` symbols of `src` that start at `offset`. -/
def strncpy16 (src : List Nat) (offset count : Nat) : List Nat := (src.drop offset).take count

/-! ## `predict_test` -/

/-- The fields of `STRUCT_PREDICTION` (declared in `model.h`) that decide
anything in `predict_test`: `sym` holds the symbols `pred.sym[j].symbol` for
`j < pred.num_predictions`, so `num_predictions` is its length, and `depth` is
the order at which the prediction was resolved.  The probability fields are
only printed. -/
structure STRUCT_PREDICTION where
  sym : List Nat
  depth : Int
  deriving DecidableEq, Repr

/-- The value of `pred.num_predictions`. -/
def STRUCT_PREDICTION.num_predictions (pred : STRUCT_PREDICTION) : Nat := pred.sym.length

/-- One call `predict_next (str_sub, &pred)` made by `predict_test`: the index
`i` being scored, the context passed and the prediction returned. -/
structure Query where
  position : Nat
  context : List Nat
  pred : STRUCT_PREDICTION
  deriving DecidableEq, Repr

/-- What `predict_test` prints inside its loop and before it. -/
inductive Diag where
  | header (representation : Nat)
  | loc_error (symbol : Nat)
  | prediction (expected predicted num_predictions : Nat) (depth mapping : Int)
      (is_neighbor : Bool)
  deriving DecidableEq, Repr

/-- The local variables of `predict_test` that live across loop iterations,
the static index of `get_loctimestring_type`, and three records of what the
run did: the calls of `predict_next`, the argument pairs of the calls of
`neighboring_ap`, and the printed diagnostics, each in the order made. -/
@[ext]
structure TestState where
  num_tested : Nat
  num_right : Nat
  num_locations : Nat
  number_fallbacks_to_zero_but_still_right : Nat
  total_fallbacks_to_zero : Nat
  number_multiple_predictions : Nat
  number_times_neighbors_are_correct : Nat
  predicted_correctly : Bool
  next_type_index : Nat
  queries : List Query
  oracle_calls : List (Nat × Nat)
  output : List Diag
  deriving DecidableEq, Repr

/-- The first inner loop of `predict_test`,
`for (j=0; j < pred.num_predictions; j++)`, entered at index `j` with the
candidates `pred.sym[j..]` still to visit. -/
def check_predictions (verbose : Bool) (m : Mapping) (expected : Nat)
    (pred : STRUCT_PREDICTION) (mapping : Int) : Nat → List Nat → TestState → Option TestState
  | _, [], s => some s
  | j, p :: rest, s =>
    let traced : Option TestState :=
      if verbose then
        if expected = p then
          some { s with output := s.output ++
            [Diag.prediction expected p pred.num_predictions pred.depth mapping false] }
        else
          match neighboring_ap m p expected with
          | none => none
          | some is_neighbor =>
            some { s with
              oracle_calls := s.oracle_calls ++ [(p, expected)]
              output := s.output ++
                [Diag.prediction expected p pred.num_predictions pred.depth mapping is_neighbor] }
      else some s
    match traced with
    | none => none
    | some s1 =>
      let s2 : TestState :=
        if expected = p then
          { s1 with
            num_right := s1.num_right + 1
            predicted_correctly := true
            number_fallbacks_to_zero_but_still_right :=
              if pred.depth = 0 then s1.number_fallbacks_to_zero_but_still_right + 1
              else s1.number_fallbacks_to_zero_but_still_right }
        else s1
      let s3 : TestState :=
        if pred.depth = 0 ∧ j = 0 then
          { s2 with total_fallbacks_to_zero := s2.total_fallbacks_to_zero + 1 }
        else s2
      check_predictions verbose m expected pred mapping (j + 1) rest s3

/-- The second inner loop of `predict_test`, run when no candidate was right:
every candidate is handed to `neighboring_ap` and each neighbor found
increments `number_times_neighbors_are_correct`. -/
def check_neighbors (m : Mapping) (expected : Nat) : List Nat → TestState → Option TestState
  | [], s => some s
  | p :: rest, s =>
    match neighboring_ap m p expected with
    | none => none
    | some is_neighbor =>
      check_neighbors m expected rest
        { s with
          oracle_calls := s.oracle_calls ++ [(p, expected)]
          number_times_neighbors_are_correct :=
            if is_neighbor then s.number_times_neighbors_are_correct + 1
            else s.number_times_neighbors_are_correct }

/-- The contents of `str_sub` after the copy at the head of the loop body:
`if (i < max_order) strncpy16 (str_sub, test_string, 0, i);
else strncpy16 (str_sub, test_string, i-max_order, max_order);`. -/
def str_sub (max_order : Nat) (test_string : List Nat) (i : Nat) : List Nat :=
  if i < max_order then strncpy16 test_string 0 i
  else strncpy16 test_string (i - max_order) max_order

/-- The body of the main loop of `predict_test` at index `i`. -/
def score_position (verbose : Bool) (representation : Nat) (m : Mapping)
    (predict_next : List Nat → STRUCT_PREDICTION) (max_order : Nat) (test_string : List Nat)
    (i : Nat) (s : TestState) : Option TestState :=
  let str_sub : List Nat := str_sub max_order test_string i
  let pred := predict_next str_sub
  let expected := get_symbol test_string i
  match get_char_type representation m s.next_type_index expected i with
  | none => none
  | some (mapping, next_index) =>
    let s1 : TestState :=
      { s with
        next_type_index := next_index
        queries := s.queries ++ [{ position := i, context := str_sub, pred := pred }]
        output := if mapping ≠ LOC then s.output ++ [Diag.loc_error expected] else s.output
        num_locations := s.num_locations + 1
        number_multiple_predictions :=
          if pred.num_predictions > 1 then s.number_multiple_predictions + 1
          else s.number_multiple_predictions
        predicted_correctly := false }
    match check_predictions verbose m expected pred mapping 0 pred.sym s1 with
    | none => none
    | some s2 =>
      if s2.predicted_correctly = false then check_neighbors m expected pred.sym s2
      else some s2

/-- The main loop of `predict_test`,
`for (i=max_order; i < length; i+= 2, num_tested++)`, entered at index `i`.
`fuel` bounds the number of iterations; `none` when it runs out or when an
iteration has no defined result. -/
def predict_loop (verbose : Bool) (representation : Nat) (m : Mapping)
    (predict_next : List Nat → STRUCT_PREDICTION) (max_order : Nat) (test_string : List Nat) :
    Nat → Nat → TestState → Option TestState
  | 0, _, _ => none
  | fuel + 1, i, s =>
    if i < strlen16 test_string then
      match score_position verbose representation m predict_next max_order test_string i s with
      | none => none
      | some s1 =>
        predict_loop verbose representation m predict_next max_order test_string fuel (i + 2)
          { s1 with num_tested := s1.num_tested + 1 }
    else some s

/-- The state of `predict_test` when its loop is entered. -/
def initial_state (verbose : Bool) (representation : Nat) : TestState :=
  { num_tested := 0
    num_right := 0
    num_locations := 0
    number_fallbacks_to_zero_but_still_right := 0
    total_fallbacks_to_zero := 0
    number_multiple_predictions := 0
    number_times_neighbors_are_correct := 0
    predicted_correctly := false
    next_type_index := 0
    queries := []
    oracle_calls := []
    output := if verbose then [Diag.header representation] else [] }

/-- The function `predict_test (test_string)` up to its summary line, for `max_order ≥ 0`.  The
globals `verbose`, `representation` and `max_order`, the tables of `mapping.h`
and the model's `predict_next` are parameters.  The loop gets one unit of fuel
per symbol of the test string, and one more. -/
def predict_test (verbose : Bool) (representation : Nat) (m : Mapping)
    (predict_next : List Nat → STRUCT_PREDICTION) (max_order : Nat) (test_string : List Nat) :
    Option TestState :=
  predict_loop verbose representation m predict_next max_order test_string
    (strlen16 test_string + 1) max_order (initial_state verbose representation)

/-- The percentage printed in the summary line of `predict_test`, as an exact rational:
`num_tested ? 100 * (float) num_right/(float)num_tested : 0.0` when `verbose`
is on, `num_locations ? 100 * (float) num_right/(float) num_locations : 0.0`
when it is off. -/
def percent_correct (verbose : Bool) (s : TestState) : ℚ :=
  if verbose then
    if s.num_tested = 0 then 0 else 100 * (s.num_right : ℚ) / (s.num_tested : ℚ)
  else
    if s.num_locations = 0 then 0 else 100 * (s.num_right : ℚ) / (s.num_locations : ℚ)

/-- The six counters of the summary line after `max_order`: `num_right`,
`num_locations`, `number_fallbacks_to_zero_but_still_right`,
`total_fallbacks_to_zero`, `number_multiple_predictions`,
`number_times_neighbors_are_correct`. -/
def TestState.counters (s : TestState) : Nat × Nat × Nat × Nat × Nat × Nat :=
  (s.num_right, s.num_locations, s.number_fallbacks_to_zero_but_still_right,
    s.total_fallbacks_to_zero, s.number_multiple_predictions,
    s.number_times_neighbors_are_correct)

/-! ## Descriptions used in the statements about `predict_test` -/

/-- The relation `neighboring_ap` computes on well-formed tables: `b` occurs in
`ap_map` and `a` stands, before the 0 terminator, in the row of `ap_neighbors`
at the first index of `b` in `ap_map`. -/
def listed_neighbor (m : Mapping) (a b : Nat) : Bool :=
  decide (b ∈ m.ap_map ∧
    a ∈ ((m.ap_neighbors.getD (m.ap_map.indexOf b) []).takeWhile (fun x => decide (x ≠ 0))))

/-- The argument pairs of the calls of `neighboring_ap` made by the first
inner loop on the candidates `cands`: none when `verbose` is off, one for each
candidate other than the expected symbol when it is on. -/
def trace_calls (verbose : Bool) (expected : Nat) (cands : List Nat) : List (Nat × Nat) :=
  if verbose then (cands.filter (fun p => decide (expected ≠ p))).map (fun p => (p, expected))
  else []

/-- The lines the first inner loop prints for the candidates `cands`. -/
def trace_lines (verbose : Bool) (m : Mapping) (expected : Nat) (pred : STRUCT_PREDICTION)
    (mapping : Int) (cands : List Nat) : List Diag :=
  if verbose then
    cands.map (fun p => Diag.prediction expected p pred.num_predictions pred.depth mapping
      (if expected = p then false else listed_neighbor m p expected))
  else []

/-- The call of `predict_next` that scoring index `i` makes. -/
def query_at (predict_next : List Nat → STRUCT_PREDICTION) (max_order : Nat)
    (test_string : List Nat) (i : Nat) : Query :=
  { position := i
    context := str_sub max_order test_string i
    pred := predict_next (str_sub max_order test_string i) }

/-- What holds of the state of `predict_test` when its loop test is reached for
the `n`-th time (counting from 0): the calls of `predict_next` made so far are
those for the indices `max_order + 2 * k`, `k < n`, all of them below the
length of the test string; each counter is the sum, over these calls, of what
one loop body adds to it; and no oracle call had equal arguments. -/
structure LoopInv (m : Mapping) (predict_next : List Nat → STRUCT_PREDICTION)
    (max_order : Nat) (test_string : List Nat) (n : Nat) (s : TestState) : Prop where
  queries_eq : s.queries =
    (List.range n).map (fun k => query_at predict_next max_order test_string (max_order + 2 * k))
  below : ∀ k, k < n → max_order + 2 * k < test_string.length
  tested : s.num_tested = n
  locations : s.num_locations = n
  right : s.num_right =
    (s.queries.map (fun q => q.pred.sym.count (get_symbol test_string q.position))).sum
  fallbacks_right : s.number_fallbacks_to_zero_but_still_right =
    (s.queries.map (fun q =>
      if q.pred.depth = 0 then q.pred.sym.count (get_symbol test_string q.position) else 0)).sum
  fallbacks : s.total_fallbacks_to_zero =
    (s.queries.map (fun q => if q.pred.depth = 0 ∧ q.pred.sym ≠ [] then 1 else 0)).sum
  multiple : s.number_multiple_predictions =
    (s.queries.map (fun q => if q.pred.sym.length > 1 then 1 else 0)).sum
  neighbors : s.number_times_neighbors_are_correct =
    (s.queries.map (fun q =>
      if get_symbol test_string q.position ∈ q.pred.sym then 0
      else (q.pred.sym.filter
        (fun p => listed_neighbor m p (get_symbol test_string q.position))).length)).sum
  type_index : s.next_type_index < 9
  calls : ∀ c ∈ s.oracle_calls, c.1 ≠ c.2

/-- The number of iterations of the main loop of `predict_test` on a test
string of length `length`: the number of indices `max_order`,
`max_order + 2`, ... below `length` (the subtraction is truncated, so this is
0 when `length ≤ max_order`). -/
def iterations (max_order length : Nat) : Nat := (length - max_order + 1) / 2

/-! ## `initialize_options` -/

/-- The digits loop of the C library's `atoi`: accumulate decimal digits, stop at the
first other character. -/
def atoi_digits : List Char → Int → Int
  | [], acc => acc
  | c :: rest, acc =>
    if c.isDigit then atoi_digits rest (acc * 10 + ((c.toNat - Char.toNat '0' : Nat) : Int))
    else acc

/-- The C library's `atoi`: skip white space, read an optional sign, then
decimal digits; 0 when there is no digit. -/
def atoi (str : String) : Int :=
  match str.toList.dropWhile Char.isWhitespace with
  | '-' :: rest => - atoi_digits rest 0
  | '+' :: rest => atoi_digits rest 0
  | rest => atoi_digits rest 0

/-- What `initialize_options` prints. -/
inductive OptMsg where
  | training_on (name : String)
  | testing_on (name : String)
  | even_order_warning
  | input_type (representation : Nat)
  | usage
  | training_name (name : String)
  | test_open_failed
  | training_open_failed (name : String)
  deriving DecidableEq, Repr

/-- The globals `verbose`, `representation`, `max_order` and `test_file`, the
locals `function`, `training_file_name` (`none` until it is first written) and
what has been printed. -/
structure OptState where
  verbose : Bool
  representation : Nat
  max_order : Int
  function : Nat
  training_file_name : Option String
  test_file : Option String
  messages : List OptMsg
  deriving DecidableEq, Repr

/-- How a call of `initialize_options` ends: it returns `function`, it calls
`exit (status)`, or it has no defined behaviour (a null `argv` entry handed to
`strcpy` or `atoi`, a name longer than its buffer, an unset file name). -/
inductive OptionsOutcome where
  | returned (function : Nat) (s : OptState)
  | exited (status : Int) (s : OptState)
  | undefined
  deriving DecidableEq, Repr

/-- The chain of `strcmp (str_type, ...)` tests of the `-input_type` branch. -/
def representation_of (str_type : String) : Nat :=
  if str_type = "locstrings" then LOCSTRINGS
  else if str_type = "loctimestrings" then LOCTIMESTRINGS
  else if str_type = "boxstrings" then BOXSTRINGS
  else if str_type = "binboxstrings" then BINBOXSTRINGS
  else if str_type = "bindowts" then BINDOWTS
  else NONE

/-- The code of `initialize_options` after its loop: open the training file and return
`function`, or `exit (-1)` when it cannot be opened.  `can_open` tells which
files `fopen` can open for reading. -/
def open_training_file (can_open : String → Bool) (s : OptState) : OptionsOutcome :=
  match s.training_file_name with
  | none => OptionsOutcome.undefined
  | some name =>
    let s1 : OptState :=
      if s.verbose then { s with messages := s.messages ++ [OptMsg.training_name name] } else s
    if can_open name then OptionsOutcome.returned s1.function s1
    else OptionsOutcome.exited (-1)
      { s1 with messages := s1.messages ++ [OptMsg.training_open_failed name] }

/-- The loop `while ( argc > 0 )` of `initialize_options`.  `argv` is the list of the
arguments from `*argv` on (the null pointer that ends `argv` is the end of the
list); `argc` is kept next to it, as in the code, because the two are not
always moved together. -/
def options_loop (can_open : String → Bool) : Int → List String → OptState → OptionsOutcome
  | argc, [], s =>
    if argc > 0 then OptionsOutcome.undefined else open_training_file can_open s
  | argc, arg :: rest, s =>
    if argc > 0 then
      if arg = "-f" then
        match rest with
        | [] => OptionsOutcome.undefined
        | value :: rest1 =>
          if value.utf8ByteSize > 80 then OptionsOutcome.undefined
          else
            options_loop can_open (argc - 1 - 1) rest1
              { s with
                training_file_name := some value
                messages :=
                  if s.verbose then s.messages ++ [OptMsg.training_on value] else s.messages }
      else if arg = "-p" then
        match rest with
        | [] => OptionsOutcome.undefined
        | value :: rest1 =>
          if value.utf8ByteSize > 80 then OptionsOutcome.undefined
          else if can_open value then
            options_loop can_open (argc - 1 - 1) rest1
              { s with
                test_file := some value
                function := PREDICT_TEST
                messages :=
                  if s.verbose then s.messages ++ [OptMsg.testing_on value] else s.messages }
          else
            OptionsOutcome.exited (-1)
              { s with messages := s.messages ++ [OptMsg.test_open_failed] }
      else if arg = "-o" then
        match rest with
        | [] => OptionsOutcome.undefined
        | value :: rest1 =>
          options_loop can_open (argc - 1 - 1) rest1
            { s with
              max_order := atoi value
              messages :=
                if atoi value % 2 = 0 then s.messages ++ [OptMsg.even_order_warning]
                else s.messages }
      else if arg = "-v" then
        options_loop can_open (argc - 1 - 1) rest { s with verbose := true }
      else if arg = "-logloss" then
        match rest with
        | [] => OptionsOutcome.undefined
        | value :: rest1 =>
          if value.utf8ByteSize > 80 then OptionsOutcome.undefined
          else if can_open value then
            options_loop can_open (argc - 1 - 1) rest1
              { s with
                test_file := some value
                function := LOGLOSS_EVAL }
          else
            OptionsOutcome.exited (-1)
              { s with messages := s.messages ++ [OptMsg.test_open_failed] }
      else if arg = "-input_type" then
        match rest with
        | [] => OptionsOutcome.undefined
        | value :: rest1 =>
          if value.utf8ByteSize > 40 then OptionsOutcome.undefined
          else
            options_loop can_open (argc - 1 - 1) rest1
              { s with
                representation := representation_of value
                messages :=
                  if s.verbose then s.messages ++ [OptMsg.input_type (representation_of value)]
                  else s.messages }
      else
        OptionsOutcome.exited (-1) { s with messages := s.messages ++ [OptMsg.usage] }
    else open_training_file can_open s

/-- The function `initialize_options (argc, argv)`.  `verbose0` and `max_order0` are the values of
the globals `verbose` and `max_order` at the call (`FALSE` and the default of
the model when called from `main`). -/
def initialize_options (can_open : String → Bool) (verbose0 : Bool) (max_order0 : Int)
    (argc : Int) (argv : List String) : OptionsOutcome :=
  options_loop can_open argc argv
    { verbose := verbose0
      representation := NONE
      max_order := max_order0
      function := NO_FUNCTION
      training_file_name := none
      test_file := none
      messages := [] }

/-- The call `initialize_options ( --argc, ++argv )` of `main`: `args` are the command-line
arguments after the program name. -/
def main_initialize_options (can_open : String → Bool) (max_order0 : Int) (args : List String) :
    OptionsOutcome :=
  initialize_options can_open false max_order0 (args.length : Int) args

/-! ## The training loop of `main` -/

/-- The three operations of the model (`model.c`, not among the translated
sources) that the training loop of `main` calls, on a model state of type `σ`. -/
structure ModelOps (σ : Type) where
  clear_current_order : σ → σ
  update_model : Nat → σ → σ
  add_character_to_model : Nat → σ → σ

/-- The training loop of `main`,
`for ( ; ; ) { if (fread (&c, ...) == 0) c = DONE; clear_current_order ();
if ( c == DONE ) break; update_model ( c ); add_character_to_model ( c ); }`.
The list holds the symbols `fread` has still to deliver from the training
file; `DONE` is the constant of that name. -/
def training_loop {σ : Type} (ops : ModelOps σ) (DONE : Nat) : List Nat → σ → σ
  | [], s => ops.clear_current_order s
  | c :: rest, s =>
    if c = DONE then ops.clear_current_order s
    else
      training_loop ops DONE rest
        (ops.add_character_to_model c (ops.update_model c (ops.clear_current_order s)))

/-- A call into the model: one of the three the training loop makes, or the
flush operation of the model. -/
inductive ModelCall where
  | clear_current_order
  | update_model (c : Nat)
  | add_character_to_model (c : Nat)
  | flush_model
  deriving DecidableEq, Repr

/-- The model that only records, in order, the calls made into it. -/
def recording_model : ModelOps (List ModelCall) :=
  { clear_current_order := fun calls => calls ++ [ModelCall.clear_current_order]
    update_model := fun c calls => calls ++ [ModelCall.update_model c]
    add_character_to_model := fun c calls => calls ++ [ModelCall.add_character_to_model c] }

/-- The symbols of a training stream that precede its first `DONE` value. -/
def before_done (DONE : Nat) (stream : List Nat) : List Nat :=
  stream.takeWhile (fun c => decide (c ≠ DONE))

/-! ## Successive calls of `get_loctimestring_type` -/

/-- The call `get_loctimestring_type (symbol)` for each symbol of a list, in order, the static
`next_type_index` carried from one call to the next.  For each call the result
lists the type returned and the value of `next_type_index` after it. -/
def classify_loctimestring : Nat → List Nat → Option (List (Int × Nat))
  | _, [] => some []
  | next_type_index, symbol :: rest =>
    match get_loctimestring_type next_type_index symbol with
    | none => none
    | some (result, next_index) =>
      match classify_loctimestring next_index rest with
      | none => none
      | some out => some ((result, next_index) :: out)

/-- The four delimiter symbols of a loctimestring. -/
def is_loctime_delimiter (symbol : Nat) : Bool :=
  decide (symbol = Char.toNat '}' ∨ symbol = Char.toNat ':' ∨
    symbol = Char.toNat '~' ∨ symbol = Char.toNat ';')

/-- The number of symbols other than delimiters among the first `j` of a list. -/
def non_delimiters_before (symbols : List Nat) (j : Nat) : Nat :=
  ((symbols.take j).filter (fun symbol => !is_loctime_delimiter symbol)).length

/-- The 9-periodic pattern LOC, STRT, STRT, STRT, STRT, DUR, DUR, DUR, DUR. -/
def loctime_pattern (k : Nat) : Int :=
  if k % 9 = 0 then LOC else if k % 9 ≤ 4 then STRT else DUR

/-! ## Concrete inputs -/

/-- A table pair of the shape `neighboring_ap` relies on: symbol 7 is the
location at index 0 and its neighbors are 1 and 2; every other entry of
`ap_map` is 0 and every other row is empty. -/
def sample_mapping : Mapping :=
  { ap_map := 7 :: List.replicate 524 0
    ap_neighbors := [1, 2, 0] :: List.replicate 524 [0]
    INITIAL_START_TIME := 0x2500
    FINAL_START_TIME := 0x25FF
    INITIAL_DURATION := 0x2600
    FINAL_DURATION := 0x261F
    INITIAL_LOCATION := 0x2620
    FINAL_LOCATION := 0x26FF }

/-- A prediction engine whose candidate list names the symbol 5 twice. -/
def repeating_engine : List Nat → STRUCT_PREDICTION :=
  fun _ => { sym := [5, 5], depth := 1 }

/-- A prediction engine that answers every context with the two candidates 1
and 2, resolved at depth 0. -/
def depth_zero_engine : List Nat → STRUCT_PREDICTION :=
  fun _ => { sym := [1, 2], depth := 0 }

/-- A prediction engine that answers every context with the two candidates 1
and 2, resolved at depth 1. -/
def sample_engine : List Nat → STRUCT_PREDICTION :=
  fun _ => { sym := [1, 2], depth := 1 }

/-! ## Facts about `neighboring_ap` -/

theorem scan_neighbors_terminated (a : Nat) (row : List Nat) (h : 0 ∈ row) :
    scan_neighbors a row = some (decide (a ∈ row.takeWhile (fun x => decide (x ≠ 0)))) := by
  induction row with
  | nil => simp at h
  | cons x rest ih =>
    unfold scan_neighbors
    by_cases hx : x = 0
    · simp [hx, List.takeWhile]
    · have h0 : 0 ∈ rest := by
        rcases List.mem_cons.mp h with h1 | h1
        · exact absurd h1.symm hx
        · exact h1
      by_cases hxa : x = a
      · subst hxa
        simp [hx, List.takeWhile]
      · have hax : ¬ a = x := fun h => hxa h.symm
        simp [hx, hxa, hax, List.takeWhile, ih h0]

theorem find_ap_number_eq (b : Nat) (l : List Nat) (i : Nat) (h : i + l.length = 525) :
    find_ap_number b l i = some (if b ∈ l then some (i + l.indexOf b) else none) := by
  induction l generalizing i with
  | nil =>
    have hi : ¬ i < 525 := by simp at h; omega
    simp [find_ap_number, hi]
  | cons v rest ih =>
    have hi : i < 525 := by simp at h; omega
    unfold find_ap_number
    by_cases hb : v = b
    · simp [hi, hb]
    · have hb2 : ¬ b = v := fun e => hb e.symm
      simp only [hi, if_true, hb, if_false, List.mem_cons, hb2, false_or]
      rw [ih (i + 1) (by simp at h; omega)]
      by_cases hm : b ∈ rest
      · simp [hm, List.indexOf_cons_ne _ hb]
        omega
      · simp [hm]

theorem neighboring_ap_eq (m : Mapping) (hwf : m.WellFormed) (a b : Nat) :
    neighboring_ap m a b =
      some (decide (b ∈ m.ap_map ∧
        a ∈ ((m.ap_neighbors.getD (m.ap_map.indexOf b) []).takeWhile
          (fun x => decide (x ≠ 0))))) := by
  obtain ⟨hlen, hrows, hterm⟩ := hwf
  unfold neighboring_ap
  rw [find_ap_number_eq b m.ap_map 0 (by omega)]
  by_cases hb : b ∈ m.ap_map
  · have hk : m.ap_map.indexOf b < m.ap_neighbors.length := by
      rw [hrows, ← hlen]; exact List.indexOf_lt_length.mpr hb
    have hrow : m.ap_neighbors[m.ap_map.indexOf b] ∈ m.ap_neighbors := List.getElem_mem hk
    simp only [hb, if_true, Nat.zero_add, true_and]
    rw [List.get?_eq_getElem?, List.getElem?_eq_getElem hk, List.getD_eq_getElem _ _ hk]
    exact scan_neighbors_terminated a _ (hterm _ hrow)
  · simp [hb]

theorem sample_mapping_wellFormed : sample_mapping.WellFormed := by
  refine ⟨?_, ?_, ?_⟩
  · simp only [sample_mapping, List.length_cons, List.length_replicate]
  · simp only [sample_mapping, List.length_cons, List.length_replicate]
  · intro row h
    simp only [sample_mapping, List.mem_cons, List.mem_replicate] at h
    rcases h with h | ⟨_, h⟩ <;> simp [h]

/-- C4: for tables of the shape `neighboring_ap` relies on (525 entries in
`ap_map`, a 0-terminated row of `ap_neighbors` for each), the call
`neighboring_ap (a, b)` returns, and it returns true exactly when `b` occurs in
`ap_map` and `a` is listed, before the 0 terminator, in the row at the first
index of `b` in `ap_map`; when `b` is not in `ap_map` it returns false. -/
theorem neighboring_ap_iff_listed (m : Mapping) (a b : Nat)
    (hmap : m.ap_map.length = 525) (hrows : m.ap_neighbors.length = 525)
    (hterm : ∀ row ∈ m.ap_neighbors, 0 ∈ row) :
    ∃ r, neighboring_ap m a b = some r ∧
      (r = true ↔ b ∈ m.ap_map ∧
        a ∈ ((m.ap_neighbors.getD (m.ap_map.indexOf b) []).takeWhile
          (fun x => decide (x ≠ 0)))) ∧
      (b ∉ m.ap_map → r = false) := by
  refine ⟨_, neighboring_ap_eq m ⟨hmap, hrows, hterm⟩ a b, ?_, ?_⟩
  · simp
  · intro hb
    simp [hb]

/-- Witness for C4: candidate 1 and ground truth 7 in the sample tables. -/
theorem neighboring_ap_iff_listed_witness :
    sample_mapping.ap_map.length = 525 ∧ sample_mapping.ap_neighbors.length = 525 ∧
    (∀ row ∈ sample_mapping.ap_neighbors, 0 ∈ row) ∧
    ∃ r, neighboring_ap sample_mapping 1 7 = some r ∧
      (r = true ↔ 7 ∈ sample_mapping.ap_map ∧
        1 ∈ ((sample_mapping.ap_neighbors.getD (sample_mapping.ap_map.indexOf 7) []).takeWhile
          (fun x => decide (x ≠ 0)))) ∧
      (7 ∉ sample_mapping.ap_map → r = false) :=
  ⟨sample_mapping_wellFormed.1, sample_mapping_wellFormed.2.1, sample_mapping_wellFormed.2.2,
    neighboring_ap_iff_listed sample_mapping 1 7 sample_mapping_wellFormed.1
      sample_mapping_wellFormed.2.1 sample_mapping_wellFormed.2.2⟩

/-! ## The inner loops of `predict_test` in closed form -/

theorem neighboring_ap_listed (m : Mapping) (hwf : m.WellFormed) (a b : Nat) :
    neighboring_ap m a b = some (listed_neighbor m a b) :=
  neighboring_ap_eq m hwf a b

theorem check_neighbors_eq (m : Mapping) (hwf : m.WellFormed) (expected : Nat)
    (cands : List Nat) (s : TestState) :
    check_neighbors m expected cands s =
      some { s with
        oracle_calls := s.oracle_calls ++ cands.map (fun p => (p, expected))
        number_times_neighbors_are_correct :=
          s.number_times_neighbors_are_correct +
            (cands.filter (fun p => listed_neighbor m p expected)).length } := by
  induction cands generalizing s with
  | nil => simp [check_neighbors]
  | cons p rest ih =>
    unfold check_neighbors
    rw [neighboring_ap_listed m hwf]
    simp only [ih]
    cases hl : listed_neighbor m p expected <;>
      simp [List.filter_cons, hl, Nat.add_assoc, Nat.add_comm]

theorem check_predictions_eq (verbose : Bool) (m : Mapping) (hwf : m.WellFormed)
    (expected : Nat) (pred : STRUCT_PREDICTION) (mapping : Int) (j : Nat) (cands : List Nat)
    (s : TestState) :
    check_predictions verbose m expected pred mapping j cands s =
      some { s with
        num_right := s.num_right + cands.count expected
        predicted_correctly := s.predicted_correctly || decide (expected ∈ cands)
        number_fallbacks_to_zero_but_still_right :=
          s.number_fallbacks_to_zero_but_still_right +
            (if pred.depth = 0 then cands.count expected else 0)
        total_fallbacks_to_zero :=
          s.total_fallbacks_to_zero + (if pred.depth = 0 ∧ j = 0 ∧ cands ≠ [] then 1 else 0)
        oracle_calls := s.oracle_calls ++ trace_calls verbose expected cands
        output := s.output ++ trace_lines verbose m expected pred mapping cands } := by
  induction cands generalizing j s with
  | nil => simp [check_predictions, trace_calls, trace_lines]
  | cons p rest ih =>
    unfold check_predictions
    simp only [neighboring_ap_listed m hwf, ih]
    cases verbose <;> by_cases hp : expected = p <;> by_cases hd : pred.depth = 0 <;>
      by_cases hj : j = 0 <;>
      simp [hp, hd, hj, trace_calls, trace_lines, List.filter_cons, List.count_cons] <;>
      omega

/-! ## The main loop of `predict_test` -/

theorem get_char_type_some (representation : Nat) (m : Mapping) (idx symbol i : Nat)
    (h : idx < 9) :
    ∃ mapping idx1, get_char_type representation m idx symbol i = some (mapping, idx1) ∧
      idx1 < 9 := by
  unfold get_char_type get_loctimestring_type
  have ht : ∃ r, types[idx]? = some r := by
    have : idx < types.length := by simpa [types] using h
    exact ⟨_, List.getElem?_eq_getElem this⟩
  obtain ⟨r, hr⟩ := ht
  have hmod : (idx + 1) % 9 < 9 := Nat.mod_lt _ (by decide)
  split_ifs
  all_goals first
    | exact ⟨_, _, rfl, h⟩
    | (simp only [hr]; exact ⟨_, _, rfl, hmod⟩)

theorem initial_state_inv (verbose : Bool) (representation : Nat) (m : Mapping)
    (predict_next : List Nat → STRUCT_PREDICTION) (max_order : Nat) (test_string : List Nat) :
    LoopInv m predict_next max_order test_string 0 (initial_state verbose representation) := by
  constructor <;> simp [initial_state]

theorem score_position_inv (verbose : Bool) (representation : Nat) (m : Mapping)
    (hwf : m.WellFormed) (predict_next : List Nat → STRUCT_PREDICTION) (max_order : Nat)
    (test_string : List Nat) (n : Nat) (s : TestState)
    (hinv : LoopInv m predict_next max_order test_string n s)
    (hi : max_order + 2 * n < test_string.length) :
    ∃ s1, score_position verbose representation m predict_next max_order test_string
        (max_order + 2 * n) s = some s1 ∧
      LoopInv m predict_next max_order test_string (n + 1)
        { s1 with num_tested := s1.num_tested + 1 } := by
  obtain ⟨mapping, idx1, hg, hidx1⟩ :=
    get_char_type_some representation m s.next_type_index
      (get_symbol test_string (max_order + 2 * n)) (max_order + 2 * n) hinv.type_index
  unfold score_position
  simp only [hg, check_predictions_eq verbose m hwf, check_neighbors_eq m hwf]
  have hq := hinv.queries_eq
  have hcalls := hinv.calls
  by_cases hmem : get_symbol test_string (max_order + 2 * n) ∈
      (predict_next (str_sub max_order test_string (max_order + 2 * n))).sym
  · simp only [hmem, decide_True, Bool.or_true, Bool.true_eq_false, if_false]
    refine ⟨_, rfl, ?_⟩
    constructor
    · simp [hq, List.range_succ, query_at]
    · intro k hk
      rcases Nat.lt_succ_iff_lt_or_eq.mp hk with h | h
      · exact hinv.below k h
      · rw [h]; exact hi
    · simp [hinv.tested]
    · simp [hinv.locations]
    · simp [hinv.right]
    · simp [hinv.fallbacks_right]
    · simp [hinv.fallbacks]
    · simp [hinv.multiple, STRUCT_PREDICTION.num_predictions]
      split_ifs <;> rfl
    · simp [hinv.neighbors, hmem]
    · exact hidx1
    · intro c hc
      simp only [List.mem_append, trace_calls] at hc
      rcases hc with hc | hc
      · exact hcalls c hc
      · split_ifs at hc
        · simp only [List.mem_map, List.mem_filter, decide_eq_true_eq] at hc
          obtain ⟨p, ⟨_, hne⟩, rfl⟩ := hc
          exact fun h => hne h.symm
        · simp at hc
  · simp only [hmem, decide_False, Bool.or_false, if_true]
    refine ⟨_, rfl, ?_⟩
    constructor
    · simp [hq, List.range_succ, query_at]
    · intro k hk
      rcases Nat.lt_succ_iff_lt_or_eq.mp hk with h | h
      · exact hinv.below k h
      · rw [h]; exact hi
    · simp [hinv.tested]
    · simp [hinv.locations]
    · simp [hinv.right]
    · simp [hinv.fallbacks_right]
    · simp [hinv.fallbacks]
    · simp [hinv.multiple, STRUCT_PREDICTION.num_predictions]
      split_ifs <;> rfl
    · simp [hinv.neighbors, hmem]
    · exact hidx1
    · intro c hc
      simp only [List.mem_append, trace_calls] at hc
      rcases hc with (hc | hc) | hc
      · exact hcalls c hc
      · split_ifs at hc
        · simp only [List.mem_map, List.mem_filter, decide_eq_true_eq] at hc
          obtain ⟨p, ⟨_, hne⟩, rfl⟩ := hc
          exact fun h => hne h.symm
        · simp at hc
      · simp only [List.mem_map] at hc
        obtain ⟨p, hp, rfl⟩ := hc
        intro h
        have h1 : p = get_symbol test_string (max_order + 2 * n) := h
        exact hmem (h1 ▸ hp)

theorem predict_loop_inv (verbose : Bool) (representation : Nat) (m : Mapping)
    (hwf : m.WellFormed) (predict_next : List Nat → STRUCT_PREDICTION) (max_order : Nat)
    (test_string : List Nat) (fuel : Nat) :
    ∀ (n : Nat) (s : TestState),
      0 < fuel → test_string.length + 2 ≤ max_order + 2 * n + 2 * fuel →
      LoopInv m predict_next max_order test_string n s →
      ∃ s1 n1,
        predict_loop verbose representation m predict_next max_order test_string fuel
          (max_order + 2 * n) s = some s1 ∧
        LoopInv m predict_next max_order test_string n1 s1 ∧
        test_string.length ≤ max_order + 2 * n1 := by
  induction fuel with
  | zero =>
    intro n s h0
    exact absurd h0 (Nat.lt_irrefl 0)
  | succ fuel ih =>
    intro n s _ hf hinv
    unfold predict_loop
    by_cases hi : max_order + 2 * n < test_string.length
    · obtain ⟨s1, hs1, hinv1⟩ :=
        score_position_inv verbose representation m hwf predict_next max_order test_string n s
          hinv hi
      obtain ⟨s2, n2, hs2, hinv2, hn2⟩ := ih (n + 1) _ (by omega) (by omega) hinv1
      refine ⟨s2, n2, ?_, hinv2, hn2⟩
      have hidx : max_order + 2 * n + 2 = max_order + 2 * (n + 1) := by ring
      simp only [strlen16, hi, if_true, hs1, hidx]
      exact hs2
    · exact ⟨s, n, by simp [strlen16, hi], hinv, by omega⟩

theorem predict_test_inv (verbose : Bool) (representation : Nat) (m : Mapping)
    (hwf : m.WellFormed) (predict_next : List Nat → STRUCT_PREDICTION) (max_order : Nat)
    (test_string : List Nat) :
    ∃ r, predict_test verbose representation m predict_next max_order test_string = some r ∧
      LoopInv m predict_next max_order test_string
        (iterations max_order test_string.length) r := by
  obtain ⟨r, n, hr, hinv, hn⟩ :=
    predict_loop_inv verbose representation m hwf predict_next max_order test_string
      (strlen16 test_string + 1) 0 (initial_state verbose representation)
      (by omega) (by simp only [strlen16]; omega)
      (initial_state_inv verbose representation m predict_next max_order test_string)
  refine ⟨r, hr, ?_⟩
  have hb := hinv.below
  have hn1 : n = iterations max_order test_string.length := by
    unfold iterations
    rcases Nat.eq_zero_or_pos n with h0 | hpos
    · subst h0; omega
    · have := hb (n - 1) (by omega)
      omega
  rw [← hn1]
  exact hinv

theorem sum_map_indicator {α : Type} (P : α → Prop) [DecidablePred P] (l : List α) :
    (l.map (fun q => if P q then 1 else 0)).sum = (l.filter (fun q => decide (P q))).length := by
  induction l with
  | nil => rfl
  | cons a rest ih =>
    by_cases h : P a
    · simp [List.filter_cons, h, ih]
      omega
    · simp [List.filter_cons, h, ih]

theorem LoopInv.mem_queries {m : Mapping} {predict_next : List Nat → STRUCT_PREDICTION}
    {max_order : Nat} {test_string : List Nat} {n : Nat} {s : TestState}
    (hinv : LoopInv m predict_next max_order test_string n s) {q : Query}
    (hq : q ∈ s.queries) :
    ∃ k, k < n ∧ q = query_at predict_next max_order test_string (max_order + 2 * k) := by
  rw [hinv.queries_eq] at hq
  simp only [List.mem_map, List.mem_range] at hq
  obtain ⟨k, hk, rfl⟩ := hq
  exact ⟨k, hk, rfl⟩

theorem LoopInv.right_eq_filter {m : Mapping} {predict_next : List Nat → STRUCT_PREDICTION}
    {max_order : Nat} {test_string : List Nat} {n : Nat} {s : TestState}
    (hinv : LoopInv m predict_next max_order test_string n s)
    (hnodup : ∀ context, (predict_next context).sym.Nodup) :
    s.num_right =
      (s.queries.filter
        (fun q => decide (get_symbol test_string q.position ∈ q.pred.sym))).length := by
  rw [hinv.right, ← sum_map_indicator]
  congr 1
  apply List.map_congr_left
  intro q hq
  obtain ⟨k, _, rfl⟩ := hinv.mem_queries hq
  have hnd := hnodup (str_sub max_order test_string (max_order + 2 * k))
  by_cases hmem : get_symbol test_string (max_order + 2 * k) ∈
      (predict_next (str_sub max_order test_string (max_order + 2 * k))).sym
  · simp [query_at, hmem, List.count_eq_one_of_mem hnd hmem]
  · simp [query_at, hmem, List.count_eq_zero_of_not_mem hmem]

/-! ## The claims about `predict_test` -/

/-- C1: when no candidate list returned by the prediction engine repeats a
symbol, `predict_test` returns with `num_right` equal to the number of scored
positions whose ground-truth symbol `get_symbol (test_string, i)` occurs in
the candidate list `predict_next` returned for that position. -/
theorem num_right_counts_positions (verbose : Bool) (representation : Nat) (m : Mapping)
    (predict_next : List Nat → STRUCT_PREDICTION) (max_order : Nat) (test_string : List Nat)
    (hwf : m.WellFormed) (hnodup : ∀ context, (predict_next context).sym.Nodup) :
    ∃ r, predict_test verbose representation m predict_next max_order test_string = some r ∧
      r.num_right =
        (r.queries.filter
          (fun q => decide (get_symbol test_string q.position ∈ q.pred.sym))).length := by
  obtain ⟨r, hr, hinv⟩ :=
    predict_test_inv verbose representation m hwf predict_next max_order test_string
  exact ⟨r, hr, hinv.right_eq_filter hnodup⟩

/-- Witness for C1: the sample engine on the test string 3, 1, 4, 2 with
`max_order = 1`. -/
theorem num_right_counts_positions_witness :
    sample_mapping.WellFormed ∧ (∀ context, (sample_engine context).sym.Nodup) ∧
    ∃ r, predict_test false NONE sample_mapping sample_engine 1 [3, 1, 4, 2] = some r ∧
      r.num_right =
        (r.queries.filter
          (fun q => decide (get_symbol [3, 1, 4, 2] q.position ∈ q.pred.sym))).length :=
  ⟨sample_mapping_wellFormed, fun _ => by simp [sample_engine],
    num_right_counts_positions false NONE sample_mapping sample_engine 1 [3, 1, 4, 2]
      sample_mapping_wellFormed (fun _ => by simp [sample_engine])⟩

theorem LoopInv.queries_length {m : Mapping} {predict_next : List Nat → STRUCT_PREDICTION}
    {max_order : Nat} {test_string : List Nat} {n : Nat} {s : TestState}
    (hinv : LoopInv m predict_next max_order test_string n s) : s.queries.length = n := by
  rw [hinv.queries_eq, List.length_map, List.length_range]

theorem percent_bounds (a n : Nat) (h : a ≤ n) :
    (0 : ℚ) ≤ (if n = 0 then 0 else 100 * (a : ℚ) / (n : ℚ)) ∧
      (if n = 0 then 0 else 100 * (a : ℚ) / (n : ℚ)) ≤ 100 := by
  by_cases hn : n = 0
  · simp [hn]
  · have hpos : (0 : ℚ) < n := by exact_mod_cast Nat.pos_of_ne_zero hn
    have ha : (a : ℚ) ≤ n := by exact_mod_cast h
    simp only [hn, if_false]
    constructor
    · positivity
    · rw [div_le_iff₀ hpos]
      linarith

/-- C2, counterexample: with a candidate list that names the ground-truth
symbol twice, one scored position makes `num_right = 2`, and the percentage of
the summary line is 200. -/
theorem percent_correct_exceeds_100 :
    ∃ r, predict_test false NONE sample_mapping repeating_engine 0 [5] = some r ∧
      r.num_right = 2 ∧ r.num_locations = 1 ∧
      percent_correct false r = 200 ∧ ¬ percent_correct false r ≤ 100 := by
  refine ⟨{ num_tested := 1, num_right := 2, num_locations := 1,
            number_fallbacks_to_zero_but_still_right := 0, total_fallbacks_to_zero := 0,
            number_multiple_predictions := 1, number_times_neighbors_are_correct := 0,
            predicted_correctly := true, next_type_index := 0,
            queries := [{ position := 0, context := [], pred := { sym := [5, 5], depth := 1 } }],
            oracle_calls := [], output := [Diag.loc_error 5] }, by decide, rfl, rfl, ?_, ?_⟩
  · norm_num [percent_correct]
  · norm_num [percent_correct]

/-- C2, amended: when no candidate list returned by the prediction engine
repeats a symbol, `predict_test` returns and the percentage of its summary line
(with `verbose` on or off) lies between 0 and 100; it is 0 when no position was
scored. -/
theorem percent_correct_in_range (verbose : Bool) (representation : Nat) (m : Mapping)
    (predict_next : List Nat → STRUCT_PREDICTION) (max_order : Nat) (test_string : List Nat)
    (hwf : m.WellFormed) (hnodup : ∀ context, (predict_next context).sym.Nodup) :
    ∃ r, predict_test verbose representation m predict_next max_order test_string = some r ∧
      0 ≤ percent_correct verbose r ∧ percent_correct verbose r ≤ 100 ∧
      (r.num_locations = 0 → percent_correct verbose r = 0) := by
  obtain ⟨r, hr, hinv⟩ :=
    predict_test_inv verbose representation m hwf predict_next max_order test_string
  have hle : r.num_right ≤ iterations max_order test_string.length := by
    rw [hinv.right_eq_filter hnodup, ← hinv.queries_length]
    exact List.length_filter_le _ _
  have ht := hinv.tested
  have hl := hinv.locations
  refine ⟨r, hr, ?_, ?_, ?_⟩
  · cases verbose
    · simpa [percent_correct] using (percent_bounds _ _ (hl ▸ hle)).1
    · simpa [percent_correct] using (percent_bounds _ _ (ht ▸ hle)).1
  · cases verbose
    · simpa [percent_correct] using (percent_bounds _ _ (hl ▸ hle)).2
    · simpa [percent_correct] using (percent_bounds _ _ (ht ▸ hle)).2
  · intro h0
    have ht0 : r.num_tested = 0 := by rw [ht, ← hl]; exact h0
    cases verbose <;> simp [percent_correct, h0, ht0]

/-- Witness for C2 (amended): the sample engine on the test string 3, 1, 4, 2
with `max_order = 1`, `verbose` on. -/
theorem percent_correct_in_range_witness :
    sample_mapping.WellFormed ∧ (∀ context, (sample_engine context).sym.Nodup) ∧
    ∃ r, predict_test true NONE sample_mapping sample_engine 1 [3, 1, 4, 2] = some r ∧
      0 ≤ percent_correct true r ∧ percent_correct true r ≤ 100 ∧
      (r.num_locations = 0 → percent_correct true r = 0) :=
  ⟨sample_mapping_wellFormed, fun _ => by simp [sample_engine],
    percent_correct_in_range true NONE sample_mapping sample_engine 1 [3, 1, 4, 2]
      sample_mapping_wellFormed (fun _ => by simp [sample_engine])⟩

/-- C3, the code at the failing input: with ground truth 7 and the two
candidates 1 and 2, both neighbors of 7, there is one scored position, it is
incorrect and has a neighbor among its candidates, and
`number_times_neighbors_are_correct` ends at 2, not at 1. -/
theorem neighbors_counted_per_candidate :
    ∃ r, predict_test false NONE sample_mapping sample_engine 0 [7] = some r ∧
      r.num_locations = 1 ∧ r.num_right = 0 ∧
      (r.queries.filter (fun q =>
        decide (get_symbol [7] q.position ∉ q.pred.sym) &&
          q.pred.sym.any (fun p =>
            neighboring_ap sample_mapping p (get_symbol [7] q.position) == some true))).length
        = 1 ∧
      r.number_times_neighbors_are_correct = 2 := by
  refine ⟨{ num_tested := 1, num_right := 0, num_locations := 1,
            number_fallbacks_to_zero_but_still_right := 0, total_fallbacks_to_zero := 0,
            number_multiple_predictions := 1, number_times_neighbors_are_correct := 2,
            predicted_correctly := false, next_type_index := 0,
            queries := [{ position := 0, context := [], pred := { sym := [1, 2], depth := 1 } }],
            oracle_calls := [(1, 7), (2, 7)], output := [Diag.loc_error 7] },
          ?_, rfl, rfl, ?_, rfl⟩
  · decide
  · decide

/-- C5: with `verbose` on or off, `predict_test` returns and no call of
`neighboring_ap` it made had the candidate equal to the ground-truth symbol. -/
theorem oracle_calls_never_self_pair (verbose : Bool) (representation : Nat) (m : Mapping)
    (predict_next : List Nat → STRUCT_PREDICTION) (max_order : Nat) (test_string : List Nat)
    (hwf : m.WellFormed) :
    ∃ r, predict_test verbose representation m predict_next max_order test_string = some r ∧
      ∀ c ∈ r.oracle_calls, c.1 ≠ c.2 := by
  obtain ⟨r, hr, hinv⟩ :=
    predict_test_inv verbose representation m hwf predict_next max_order test_string
  exact ⟨r, hr, hinv.calls⟩

/-- Witness for C5: `verbose` on, ground truth 1 and the candidates 1 and 2. -/
theorem oracle_calls_never_self_pair_witness :
    sample_mapping.WellFormed ∧
    ∃ r, predict_test true NONE sample_mapping sample_engine 0 [1] = some r ∧
      ∀ c ∈ r.oracle_calls, c.1 ≠ c.2 :=
  ⟨sample_mapping_wellFormed,
    oracle_calls_never_self_pair true NONE sample_mapping sample_engine 0 [1]
      sample_mapping_wellFormed⟩

theorem iterations_eq_ceil (max_order length : Nat) (h : max_order < length) :
    iterations max_order length = ⌈((length : ℚ) - (max_order : ℚ)) / 2⌉₊ := by
  unfold iterations
  have hsub : ((length : ℚ) - (max_order : ℚ)) = ((length - max_order : ℕ) : ℚ) := by
    rw [Nat.cast_sub (Nat.le_of_lt h)]
  rw [hsub]
  generalize hd : length - max_order = d
  have hdpos : 0 < d := by omega
  have hn : (d + 1) / 2 ≠ 0 := by omega
  symm
  rw [Nat.ceil_eq_iff hn]
  have h1 : ((d + 1) / 2 - 1) * 2 < d := by omega
  have h2 : d ≤ ((d + 1) / 2) * 2 := by omega
  constructor
  · rw [lt_div_iff₀ (by norm_num : (0 : ℚ) < 2)]
    exact_mod_cast h1
  · rw [div_le_iff₀ (by norm_num : (0 : ℚ) < 2)]
    exact_mod_cast h2

/-- C6: for every `max_order` and test string of length `L`, `predict_test`
returns having scored, in this order, exactly the indices `max_order`,
`max_order + 2`, ... below `L`; `num_tested` and `num_locations` both end at
their number, which is the ceiling of `(L - max_order) / 2` when
`L > max_order` and 0 otherwise. -/
theorem scored_indices (verbose : Bool) (representation : Nat) (m : Mapping)
    (predict_next : List Nat → STRUCT_PREDICTION) (max_order : Nat) (test_string : List Nat)
    (hwf : m.WellFormed) :
    ∃ r, predict_test verbose representation m predict_next max_order test_string = some r ∧
      r.queries.map Query.position =
        (List.range (iterations max_order test_string.length)).map
          (fun k => max_order + 2 * k) ∧
      (∀ i, i ∈ r.queries.map Query.position ↔
        max_order ≤ i ∧ i < test_string.length ∧ (i - max_order) % 2 = 0) ∧
      r.num_tested = (r.queries.map Query.position).length ∧
      r.num_locations = (r.queries.map Query.position).length ∧
      r.num_tested =
        (if max_order < test_string.length then
          ⌈((test_string.length : ℚ) - (max_order : ℚ)) / 2⌉₊
        else 0) := by
  obtain ⟨r, hr, hinv⟩ :=
    predict_test_inv verbose representation m hwf predict_next max_order test_string
  have hpos : r.queries.map Query.position =
      (List.range (iterations max_order test_string.length)).map
        (fun k => max_order + 2 * k) := by
    rw [hinv.queries_eq, List.map_map]
    rfl
  refine ⟨r, hr, hpos, ?_, ?_, ?_, ?_⟩
  · intro i
    rw [hpos]
    simp only [List.mem_map, List.mem_range, iterations]
    constructor
    · rintro ⟨k, hk, rfl⟩
      omega
    · rintro ⟨h1, h2, h3⟩
      exact ⟨(i - max_order) / 2, by omega, by omega⟩
  · rw [List.length_map, hinv.queries_length, hinv.tested]
  · rw [List.length_map, hinv.queries_length, hinv.locations]
  · rw [hinv.tested]
    by_cases h : max_order < test_string.length
    · rw [if_pos h]
      exact iterations_eq_ceil _ _ h
    · rw [if_neg h]
      unfold iterations
      omega

/-- Witness for C6: `max_order = 1` on a test string of length 4. -/
theorem scored_indices_witness :
    sample_mapping.WellFormed ∧
    ∃ r, predict_test false NONE sample_mapping sample_engine 1 [3, 1, 4, 2] = some r ∧
      r.queries.map Query.position =
        (List.range (iterations 1 [3, 1, 4, 2].length)).map (fun k => 1 + 2 * k) ∧
      (∀ i, i ∈ r.queries.map Query.position ↔
        1 ≤ i ∧ i < [3, 1, 4, 2].length ∧ (i - 1) % 2 = 0) ∧
      r.num_tested = (r.queries.map Query.position).length ∧
      r.num_locations = (r.queries.map Query.position).length ∧
      r.num_tested =
        (if 1 < [3, 1, 4, 2].length then
          ⌈(([3, 1, 4, 2].length : ℚ) - ((1 : ℕ) : ℚ)) / 2⌉₊
        else 0) :=
  ⟨sample_mapping_wellFormed,
    scored_indices false NONE sample_mapping sample_engine 1 [3, 1, 4, 2]
      sample_mapping_wellFormed⟩

/-- C7, counterexample: `-o 2` is accepted by `initialize_options` with only
the warning, and with `max_order = 2` on a test string of four symbols
`predict_test` scores index 2, the third symbol, which is the first symbol of
the second pair. -/
theorem even_order_scores_context_symbol :
    main_initialize_options (fun _ => true) 3 ["-f", "train.dat", "-o", "2"] =
      OptionsOutcome.returned NO_FUNCTION
        { verbose := false, representation := NONE, max_order := 2, function := NO_FUNCTION,
          training_file_name := some "train.dat", test_file := none,
          messages := [OptMsg.even_order_warning] } ∧
    ∃ r, predict_test false NONE sample_mapping sample_engine 2 [3, 1, 2, 1] = some r ∧
      r.queries.map Query.position = [2] ∧
      ¬ ∀ q ∈ r.queries, q.position % 2 = 1 := by
  refine ⟨by decide, ?_⟩
  refine ⟨{ num_tested := 1, num_right := 1, num_locations := 1,
            number_fallbacks_to_zero_but_still_right := 0, total_fallbacks_to_zero := 0,
            number_multiple_predictions := 1, number_times_neighbors_are_correct := 0,
            predicted_correctly := true, next_type_index := 0,
            queries := [{ position := 2, context := [3, 1],
                          pred := { sym := [1, 2], depth := 1 } }],
            oracle_calls := [], output := [Diag.loc_error 2] }, ?_, rfl, ?_⟩
  · decide
  · intro h
    exact absurd (h _ (List.mem_singleton.mpr rfl)) (by decide)

/-- C7, amended: for every odd `max_order`, `predict_test` returns having
scored only odd 0-based indices of the test string, that is the second symbol
of each pair. -/
theorem odd_order_scores_target_symbols (verbose : Bool) (representation : Nat) (m : Mapping)
    (predict_next : List Nat → STRUCT_PREDICTION) (max_order : Nat) (test_string : List Nat)
    (hwf : m.WellFormed) (hodd : max_order % 2 = 1) :
    ∃ r, predict_test verbose representation m predict_next max_order test_string = some r ∧
      ∀ q ∈ r.queries, q.position % 2 = 1 := by
  obtain ⟨r, hr, hinv⟩ :=
    predict_test_inv verbose representation m hwf predict_next max_order test_string
  refine ⟨r, hr, ?_⟩
  intro q hq
  obtain ⟨k, _, rfl⟩ := hinv.mem_queries hq
  simp only [query_at]
  omega

/-- Witness for C7 (amended): `max_order = 1` on a test string of length 4. -/
theorem odd_order_scores_target_symbols_witness :
    sample_mapping.WellFormed ∧ 1 % 2 = 1 ∧
    ∃ r, predict_test false NONE sample_mapping sample_engine 1 [3, 1, 4, 2] = some r ∧
      ∀ q ∈ r.queries, q.position % 2 = 1 :=
  ⟨sample_mapping_wellFormed, rfl,
    odd_order_scores_target_symbols false NONE sample_mapping sample_engine 1 [3, 1, 4, 2]
      sample_mapping_wellFormed rfl⟩

theorem drop_take_eq_map_range (l : List Nat) (a k : Nat) (h : a + k ≤ l.length) :
    (l.drop a).take k = (List.range k).map (fun j => l.getD (a + j) 0) := by
  apply List.ext_getElem
  · simp only [List.length_take, List.length_drop, List.length_map, List.length_range]
    omega
  · intro j h1 h2
    simp only [List.length_map, List.length_range] at h2
    have h3 : a + j < l.length := by omega
    simp [List.getElem_take, List.getElem_drop, List.getD_eq_getElem?_getD,
      List.getElem?_eq_getElem h3]

/-- C8: `predict_test` returns, and at every scored index `i` the context it
passed to `predict_next` is the list of the `k = min (i, max_order)` symbols
`test_string[i-k], ..., test_string[i-1]`, in this order; these are read at
indices below `i`, so the symbol at `i` itself is not part of it. -/
theorem context_is_preceding_symbols (verbose : Bool) (representation : Nat) (m : Mapping)
    (predict_next : List Nat → STRUCT_PREDICTION) (max_order : Nat) (test_string : List Nat)
    (hwf : m.WellFormed) :
    ∃ r, predict_test verbose representation m predict_next max_order test_string = some r ∧
      ∀ q ∈ r.queries,
        q.position < test_string.length ∧
        q.context =
          (List.range (min q.position max_order)).map
            (fun j => get_symbol test_string (q.position - min q.position max_order + j)) ∧
        q.context.length = min q.position max_order ∧
        (∀ j, j < min q.position max_order →
          q.position - min q.position max_order + j < q.position) ∧
        q.pred = predict_next q.context := by
  obtain ⟨r, hr, hinv⟩ :=
    predict_test_inv verbose representation m hwf predict_next max_order test_string
  refine ⟨r, hr, ?_⟩
  intro q hq
  obtain ⟨k, hk, rfl⟩ := hinv.mem_queries hq
  have hlt := hinv.below k hk
  have hmin : min (max_order + 2 * k) max_order = max_order := by omega
  have hctx : str_sub max_order test_string (max_order + 2 * k) =
      (List.range max_order).map
        (fun j => get_symbol test_string (max_order + 2 * k - max_order + j)) := by
    unfold str_sub strncpy16
    rw [if_neg (by omega)]
    exact drop_take_eq_map_range test_string _ _ (by omega)
  simp only [query_at, hmin]
  refine ⟨hlt, hctx, ?_, ?_, trivial⟩
  · rw [hctx, List.length_map, List.length_range]
  · intro j hj
    omega

/-- Witness for C8: `max_order = 1` on a test string of length 4. -/
theorem context_is_preceding_symbols_witness :
    sample_mapping.WellFormed ∧
    ∃ r, predict_test false NONE sample_mapping sample_engine 1 [3, 1, 4, 2] = some r ∧
      ∀ q ∈ r.queries,
        q.position < [3, 1, 4, 2].length ∧
        q.context =
          (List.range (min q.position 1)).map
            (fun j => get_symbol [3, 1, 4, 2] (q.position - min q.position 1 + j)) ∧
        q.context.length = min q.position 1 ∧
        (∀ j, j < min q.position 1 → q.position - min q.position 1 + j < q.position) ∧
        q.pred = sample_engine q.context :=
  ⟨sample_mapping_wellFormed,
    context_is_preceding_symbols false NONE sample_mapping sample_engine 1 [3, 1, 4, 2]
      sample_mapping_wellFormed⟩

/-- C9: two runs of `predict_test` on the same test string, `max_order`,
prediction engine and tables both return, whatever their `verbose` flags and
`representation` selectors, with the same six summary counters, the same
`num_tested` and the same sequence of calls of `predict_next`. -/
theorem counters_independent_of_verbose (verbose1 verbose2 : Bool)
    (representation1 representation2 : Nat) (m : Mapping)
    (predict_next : List Nat → STRUCT_PREDICTION) (max_order : Nat) (test_string : List Nat)
    (hwf : m.WellFormed) :
    ∃ r1 r2,
      predict_test verbose1 representation1 m predict_next max_order test_string = some r1 ∧
      predict_test verbose2 representation2 m predict_next max_order test_string = some r2 ∧
      r1.counters = r2.counters ∧ r1.num_tested = r2.num_tested ∧ r1.queries = r2.queries := by
  obtain ⟨r1, hr1, hinv1⟩ :=
    predict_test_inv verbose1 representation1 m hwf predict_next max_order test_string
  obtain ⟨r2, hr2, hinv2⟩ :=
    predict_test_inv verbose2 representation2 m hwf predict_next max_order test_string
  have hq : r1.queries = r2.queries := by rw [hinv1.queries_eq, hinv2.queries_eq]
  refine ⟨r1, r2, hr1, hr2, ?_, ?_, hq⟩
  · unfold TestState.counters
    rw [hinv1.right, hinv1.locations, hinv1.fallbacks_right, hinv1.fallbacks, hinv1.multiple,
      hinv1.neighbors, hinv2.right, hinv2.locations, hinv2.fallbacks_right, hinv2.fallbacks,
      hinv2.multiple, hinv2.neighbors, hq]
  · rw [hinv1.tested, hinv2.tested]

/-- Witness for C9: a quiet run with no representation against a verbose run
with `LOCTIMESTRINGS`. -/
theorem counters_independent_of_verbose_witness :
    sample_mapping.WellFormed ∧
    ∃ r1 r2,
      predict_test false NONE sample_mapping sample_engine 1 [3, 1, 4, 2] = some r1 ∧
      predict_test true LOCTIMESTRINGS sample_mapping sample_engine 1 [3, 1, 4, 2] = some r2 ∧
      r1.counters = r2.counters ∧ r1.num_tested = r2.num_tested ∧ r1.queries = r2.queries :=
  ⟨sample_mapping_wellFormed,
    counters_independent_of_verbose false true NONE LOCTIMESTRINGS sample_mapping sample_engine
      1 [3, 1, 4, 2] sample_mapping_wellFormed⟩

/-! ## The claim about `initialize_options` -/

/-- C10, the code at the failing input: for the arguments
`-f train.dat -v bogus`, with `train.dat` readable, `initialize_options` returns
`NO_FUNCTION` without looking at `bogus`, because the `-v` branch decrements
`argc` once more than it advances `argv`; with the same argument placed before
`-v` it prints the usage text and calls `exit (-1)`. -/
theorem unrecognised_argument_after_v_accepted :
    main_initialize_options (fun _ => true) 3 ["-f", "train.dat", "-v", "bogus"] =
      OptionsOutcome.returned NO_FUNCTION
        { verbose := true, representation := NONE, max_order := 3, function := NO_FUNCTION,
          training_file_name := some "train.dat", test_file := none,
          messages := [OptMsg.training_name "train.dat"] } ∧
    main_initialize_options (fun _ => true) 3 ["-f", "train.dat", "bogus", "-v"] =
      OptionsOutcome.exited (-1)
        { verbose := false, representation := NONE, max_order := 3, function := NO_FUNCTION,
          training_file_name := some "train.dat", test_file := none,
          messages := [OptMsg.usage] } := by
  constructor <;> decide

/-! ## The fall-back counters of `predict_test` -/

theorem sum_map_ite_eq_sum_filter {α : Type} (P : α → Prop) [DecidablePred P] (f : α → Nat)
    (l : List α) :
    (l.map (fun q => if P q then f q else 0)).sum =
      ((l.filter (fun q => decide (P q))).map f).sum := by
  induction l with
  | nil => rfl
  | cons a rest ih =>
    by_cases h : P a
    · simp [List.filter_cons, h, ih]
    · simp [List.filter_cons, h, ih]

/-- C11: when the prediction engine returns at least one candidate for every
context, `predict_test` returns with `total_fallbacks_to_zero` equal to the
number of scored positions whose prediction has `depth == 0`, one for each such
position whatever the number of its candidates, and
`number_fallbacks_to_zero_but_still_right` is a sum taken over these positions
only (the number of candidates equal to the ground truth at each), so it is 0
when `total_fallbacks_to_zero` is. -/
theorem fallbacks_counted_once_per_position (verbose : Bool) (representation : Nat)
    (m : Mapping) (predict_next : List Nat → STRUCT_PREDICTION) (max_order : Nat)
    (test_string : List Nat) (hwf : m.WellFormed)
    (hne : ∀ context, (predict_next context).sym ≠ []) :
    ∃ r, predict_test verbose representation m predict_next max_order test_string = some r ∧
      r.total_fallbacks_to_zero =
        (r.queries.filter (fun q => decide (q.pred.depth = 0))).length ∧
      r.number_fallbacks_to_zero_but_still_right =
        ((r.queries.filter (fun q => decide (q.pred.depth = 0))).map
          (fun q => q.pred.sym.count (get_symbol test_string q.position))).sum ∧
      (r.total_fallbacks_to_zero = 0 → r.number_fallbacks_to_zero_but_still_right = 0) := by
  obtain ⟨r, hr, hinv⟩ :=
    predict_test_inv verbose representation m hwf predict_next max_order test_string
  have htotal : r.total_fallbacks_to_zero =
      (r.queries.filter (fun q => decide (q.pred.depth = 0))).length := by
    rw [hinv.fallbacks, ← sum_map_indicator]
    congr 1
    apply List.map_congr_left
    intro q hq
    obtain ⟨k, _, rfl⟩ := hinv.mem_queries hq
    have hk := hne (str_sub max_order test_string (max_order + 2 * k))
    simp [query_at, hk]
  have hright : r.number_fallbacks_to_zero_but_still_right =
      ((r.queries.filter (fun q => decide (q.pred.depth = 0))).map
        (fun q => q.pred.sym.count (get_symbol test_string q.position))).sum := by
    rw [hinv.fallbacks_right]
    exact sum_map_ite_eq_sum_filter (fun q : Query => q.pred.depth = 0)
      (fun q => q.pred.sym.count (get_symbol test_string q.position)) r.queries
  refine ⟨r, hr, htotal, hright, ?_⟩
  intro h0
  rw [htotal] at h0
  rw [hright, List.length_eq_zero.mp h0]
  rfl

/-- Witness for C11: an engine that resolves every query at depth 0 with two
candidates, on the test string 3, 1, 4, 2 with `max_order = 1`. -/
theorem fallbacks_counted_once_per_position_witness :
    sample_mapping.WellFormed ∧ (∀ context, (depth_zero_engine context).sym ≠ []) ∧
    ∃ r, predict_test false NONE sample_mapping depth_zero_engine 1 [3, 1, 4, 2] = some r ∧
      r.total_fallbacks_to_zero =
        (r.queries.filter (fun q => decide (q.pred.depth = 0))).length ∧
      r.number_fallbacks_to_zero_but_still_right =
        ((r.queries.filter (fun q => decide (q.pred.depth = 0))).map
          (fun q => q.pred.sym.count (get_symbol [3, 1, 4, 2] q.position))).sum ∧
      (r.total_fallbacks_to_zero = 0 → r.number_fallbacks_to_zero_but_still_right = 0) :=
  ⟨sample_mapping_wellFormed, fun _ => by simp [depth_zero_engine],
    fallbacks_counted_once_per_position false NONE sample_mapping depth_zero_engine 1
      [3, 1, 4, 2] sample_mapping_wellFormed (fun _ => by simp [depth_zero_engine])⟩

/-! ## The training loop -/

theorem training_loop_eq_foldl {σ : Type} (ops : ModelOps σ) (DONE : Nat) (stream : List Nat)
    (s : σ) :
    training_loop ops DONE stream s =
      ops.clear_current_order
        ((before_done DONE stream).foldl
          (fun s c =>
            ops.add_character_to_model c (ops.update_model c (ops.clear_current_order s)))
          s) := by
  induction stream generalizing s with
  | nil => rfl
  | cons c rest ih =>
    unfold training_loop before_done
    by_cases hc : c = DONE
    · simp [hc, List.takeWhile]
    · simp only [hc, if_false, List.takeWhile, ne_eq, not_false_eq_true, decide_True,
        List.foldl_cons]
      exact ih _

theorem recording_foldl_eq (symbols : List Nat) (calls : List ModelCall) :
    symbols.foldl
        (fun s c =>
          recording_model.add_character_to_model c
            (recording_model.update_model c (recording_model.clear_current_order s)))
        calls =
      calls ++ symbols.foldl
        (fun t c => t ++ [ModelCall.clear_current_order, ModelCall.update_model c,
          ModelCall.add_character_to_model c]) [] := by
  induction symbols using List.reverseRecOn with
  | nil => simp
  | append_singleton rest c ih =>
    simp only [recording_model, List.append_assoc, List.singleton_append, List.cons_append,
      List.nil_append] at ih
    simp only [List.foldl_append, List.foldl_cons, List.foldl_nil, recording_model,
      List.append_assoc, List.singleton_append, List.cons_append, List.nil_append, ih]

theorem recording_trace_eq (DONE : Nat) (stream : List Nat) :
    training_loop recording_model DONE stream [] =
      (before_done DONE stream).foldl
        (fun t c => t ++ [ModelCall.clear_current_order, ModelCall.update_model c,
          ModelCall.add_character_to_model c]) [] ++ [ModelCall.clear_current_order] := by
  rw [training_loop_eq_foldl, recording_foldl_eq]
  simp [recording_model]

theorem mem_recorded_calls (symbols : List Nat) (call : ModelCall)
    (h : call ∈ symbols.foldl
      (fun t c => t ++ [ModelCall.clear_current_order, ModelCall.update_model c,
        ModelCall.add_character_to_model c]) []) :
    call = ModelCall.clear_current_order ∨
      ∃ c, c ∈ symbols ∧
        (call = ModelCall.update_model c ∨ call = ModelCall.add_character_to_model c) := by
  induction symbols using List.reverseRecOn with
  | nil => simp at h
  | append_singleton rest c ih =>
    simp only [List.foldl_append, List.foldl_cons, List.foldl_nil, List.mem_append,
      List.mem_cons, List.mem_singleton, List.not_mem_nil, or_false] at h
    rcases h with h | h | h | h
    · rcases ih h with h1 | ⟨d, hd, h1⟩
      · exact Or.inl h1
      · exact Or.inr ⟨d, List.mem_append_left _ hd, h1⟩
    · exact Or.inl h
    · exact Or.inr ⟨c, by simp, Or.inl h⟩
    · exact Or.inr ⟨c, by simp, Or.inr h⟩

theorem mem_training_trace (DONE : Nat) (stream : List Nat) (call : ModelCall)
    (h : call ∈ training_loop recording_model DONE stream []) :
    call = ModelCall.clear_current_order ∨
      ∃ c, c ∈ stream ∧ c ≠ DONE ∧
        (call = ModelCall.update_model c ∨ call = ModelCall.add_character_to_model c) := by
  rw [recording_trace_eq, List.mem_append, List.mem_singleton] at h
  rcases h with h | h
  · rcases mem_recorded_calls _ _ h with h1 | ⟨c, hc, h1⟩
    · exact Or.inl h1
    · refine Or.inr ⟨c, (List.takeWhile_sublist _).subset hc, ?_, h1⟩
      have := List.mem_takeWhile_imp hc
      simpa using this
  · exact Or.inl h

/-- C12: for every training stream, the training loop of `main` run on any
model with any starting state ends in the state reached by handling, in stream
order, each symbol that precedes the first `DONE` value of the stream (the
whole stream when it holds none) with `clear_current_order`, then
`update_model`, then `add_character_to_model` on that symbol, followed by one
last `clear_current_order`; recorded as calls, the run is exactly that
sequence.  The symbols handled form the longest prefix of the stream without
`DONE`, so nothing at or after the first `DONE` is trained on. -/
theorem training_handles_symbols_before_done (DONE : Nat) (stream : List Nat) :
    (∀ (σ : Type) (ops : ModelOps σ) (s : σ),
      training_loop ops DONE stream s =
        ops.clear_current_order
          ((before_done DONE stream).foldl
            (fun s c =>
              ops.add_character_to_model c (ops.update_model c (ops.clear_current_order s)))
            s)) ∧
    training_loop recording_model DONE stream [] =
      (before_done DONE stream).foldl
        (fun t c => t ++ [ModelCall.clear_current_order, ModelCall.update_model c,
          ModelCall.add_character_to_model c]) [] ++ [ModelCall.clear_current_order] ∧
    DONE ∉ before_done DONE stream ∧
    (∃ rest, stream = before_done DONE stream ++ rest ∧
      (rest = [] ∨ rest.head? = some DONE)) := by
  refine ⟨fun σ ops s => training_loop_eq_foldl ops DONE stream s,
    recording_trace_eq DONE stream, ?_, ?_⟩
  · intro h
    have := List.mem_takeWhile_imp h
    simp at this
  · refine ⟨stream.dropWhile (fun c => decide (c ≠ DONE)), ?_, ?_⟩
    · exact (List.takeWhile_append_dropWhile _ _).symm
    · induction stream with
      | nil => exact Or.inl rfl
      | cons c rest ih =>
        by_cases hc : c = DONE
        · right
          simp [List.dropWhile, hc]
        · simpa [List.dropWhile, hc] using ih

/-- C13, counterexample: there is no training stream without the `FLUSH` value
on which the training loop of `main` passes `FLUSH` to `update_model` or
`add_character_to_model`, or calls a flush operation of the model. -/
theorem training_loop_inserts_no_flush :
    ¬ ∃ (DONE FLUSH : Nat) (stream : List Nat), FLUSH ∉ stream ∧
      (ModelCall.update_model FLUSH ∈ training_loop recording_model DONE stream [] ∨
        ModelCall.add_character_to_model FLUSH ∈ training_loop recording_model DONE stream [] ∨
        ModelCall.flush_model ∈ training_loop recording_model DONE stream []) := by
  rintro ⟨DONE, FLUSH, stream, hflush, h | h | h⟩
  · rcases mem_training_trace DONE stream _ h with h1 | ⟨c, hc, _, h1 | h1⟩
    · cases h1
    · cases h1; exact hflush hc
    · cases h1
  · rcases mem_training_trace DONE stream _ h with h1 | ⟨c, hc, _, h1 | h1⟩
    · cases h1
    · cases h1
    · cases h1; exact hflush hc
  · rcases mem_training_trace DONE stream _ h with h1 | ⟨c, _, _, h1 | h1⟩
    · cases h1
    · cases h1
    · cases h1

/-- C13, amended: the training loop of `main` hands the model only symbols read
from the training stream: on a stream without the `FLUSH` value it never passes
`FLUSH` to `update_model` or `add_character_to_model`, and it never calls a
flush operation. -/
theorem training_passes_only_stream_symbols (DONE FLUSH : Nat) (stream : List Nat)
    (hflush : FLUSH ∉ stream) :
    ModelCall.update_model FLUSH ∉ training_loop recording_model DONE stream [] ∧
      ModelCall.add_character_to_model FLUSH ∉ training_loop recording_model DONE stream [] ∧
      ModelCall.flush_model ∉ training_loop recording_model DONE stream [] := by
  refine ⟨?_, ?_, ?_⟩
  · intro h
    rcases mem_training_trace DONE stream _ h with h1 | ⟨c, hc, _, h1 | h1⟩
    · cases h1
    · cases h1; exact hflush hc
    · cases h1
  · intro h
    rcases mem_training_trace DONE stream _ h with h1 | ⟨c, hc, _, h1 | h1⟩
    · cases h1
    · cases h1
    · cases h1; exact hflush hc
  · intro h
    rcases mem_training_trace DONE stream _ h with h1 | ⟨c, _, _, h1 | h1⟩
    · cases h1
    · cases h1
    · cases h1

/-- Witness for C13 (amended): `DONE = 256`, `FLUSH = 257` and the training
stream 1, 2, 3. -/
theorem training_passes_only_stream_symbols_witness :
    257 ∉ [1, 2, 3] ∧
    ModelCall.update_model 257 ∉ training_loop recording_model 256 [1, 2, 3] [] ∧
      ModelCall.add_character_to_model 257 ∉ training_loop recording_model 256 [1, 2, 3] [] ∧
      ModelCall.flush_model ∉ training_loop recording_model 256 [1, 2, 3] [] :=
  ⟨by decide, training_passes_only_stream_symbols 256 257 [1, 2, 3] (by decide)⟩

/-! ## The loctimestring classifier -/

theorem types_eq_pattern (i : Nat) (h : i < 9) : types[i]? = some (loctime_pattern i) := by
  interval_cases i <;> rfl

theorem loctime_pattern_congr (a b : Nat) (h : a % 9 = b % 9) :
    loctime_pattern a = loctime_pattern b := by
  unfold loctime_pattern
  rw [h]

theorem get_loctimestring_type_delimiter (idx symbol : Nat)
    (h : is_loctime_delimiter symbol = true) :
    get_loctimestring_type idx symbol = some (DELIM, idx) := by
  unfold is_loctime_delimiter at h
  unfold get_loctimestring_type
  rw [if_pos (of_decide_eq_true h)]

theorem get_loctimestring_type_other (idx symbol : Nat) (hidx : idx < 9)
    (h : is_loctime_delimiter symbol = false) :
    get_loctimestring_type idx symbol = some (loctime_pattern idx, (idx + 1) % 9) := by
  unfold is_loctime_delimiter at h
  unfold get_loctimestring_type
  rw [if_neg (of_decide_eq_false h), types_eq_pattern idx hidx]

theorem classify_loctimestring_from (symbols : List Nat) :
    ∀ idx, idx < 9 →
      ∃ out, classify_loctimestring idx symbols = some out ∧ out.length = symbols.length ∧
        ∀ j, j < symbols.length →
          out[j]? = some
            (if is_loctime_delimiter (symbols.getD j 0) then
              (DELIM, (idx + non_delimiters_before symbols j) % 9)
            else
              (loctime_pattern (idx + non_delimiters_before symbols j),
                (idx + non_delimiters_before symbols j + 1) % 9)) := by
  induction symbols with
  | nil =>
    intro idx _
    exact ⟨[], rfl, rfl, fun j hj => absurd hj (Nat.not_lt_zero j)⟩
  | cons symbol rest ih =>
    intro idx hidx
    cases hd : is_loctime_delimiter symbol with
    | true =>
      obtain ⟨out, hout, hlen, hget⟩ := ih idx hidx
      refine ⟨(DELIM, idx) :: out, ?_, by simp [hlen], ?_⟩
      · unfold classify_loctimestring
        simp only [get_loctimestring_type_delimiter idx symbol hd, hout]
      · intro j hj
        cases j with
        | zero => simp [hd, non_delimiters_before, Nat.mod_eq_of_lt hidx]
        | succ j =>
          have hj1 : j < rest.length := by simpa using hj
          have hnd : non_delimiters_before (symbol :: rest) (j + 1) =
              non_delimiters_before rest j := by
            simp [non_delimiters_before, List.filter_cons, hd]
          simp only [List.getElem?_cons_succ, List.getD_cons_succ, hnd]
          exact hget j hj1
    | false =>
      have hidx1 : (idx + 1) % 9 < 9 := Nat.mod_lt _ (by decide)
      obtain ⟨out, hout, hlen, hget⟩ := ih ((idx + 1) % 9) hidx1
      refine ⟨(loctime_pattern idx, (idx + 1) % 9) :: out, ?_, by simp [hlen], ?_⟩
      · unfold classify_loctimestring
        simp only [get_loctimestring_type_other idx symbol hidx hd, hout]
      · intro j hj
        cases j with
        | zero => simp [hd, non_delimiters_before]
        | succ j =>
          have hj1 : j < rest.length := by simpa using hj
          have hnd : non_delimiters_before (symbol :: rest) (j + 1) =
              non_delimiters_before rest j + 1 := by
            simp [non_delimiters_before, List.filter_cons, hd]
          have h1 : ((idx + 1) % 9 + non_delimiters_before rest j) % 9 =
              (idx + (non_delimiters_before rest j + 1)) % 9 := by omega
          have h2 : ((idx + 1) % 9 + non_delimiters_before rest j + 1) % 9 =
              (idx + (non_delimiters_before rest j + 1) + 1) % 9 := by omega
          simp only [List.getElem?_cons_succ, List.getD_cons_succ, hnd]
          rw [hget j hj1, h1, h2, loctime_pattern_congr _ _ h1]

/-- C14: a call of `get_loctimestring_type` on one of the four delimiters
returns `DELIM` and leaves `next_type_index` as it was; and when the symbols of
any list are classified in order from the initial state, every call returns,
the call on a delimiter returns `DELIM`, the call on the `k`-th symbol that is
not a delimiter (`k` counted from 0) returns the entry `k mod 9` of the pattern
LOC, STRT, STRT, STRT, STRT, DUR, DUR, DUR, DUR, and `next_type_index` is
below 9 after every call. -/
theorem loctimestring_types_follow_pattern (symbols : List Nat) :
    (∀ idx symbol, is_loctime_delimiter symbol = true →
      get_loctimestring_type idx symbol = some (DELIM, idx)) ∧
    ∃ out, classify_loctimestring 0 symbols = some out ∧ out.length = symbols.length ∧
      (∀ j, j < symbols.length →
        out[j]? = some
          (if is_loctime_delimiter (symbols.getD j 0) then
            (DELIM, non_delimiters_before symbols j % 9)
          else
            (loctime_pattern (non_delimiters_before symbols j),
              (non_delimiters_before symbols j + 1) % 9))) ∧
      (∀ entry ∈ out, entry.2 < 9) := by
  refine ⟨get_loctimestring_type_delimiter, ?_⟩
  obtain ⟨out, hout, hlen, hget⟩ := classify_loctimestring_from symbols 0 (by decide)
  simp only [Nat.zero_add] at hget
  refine ⟨out, hout, hlen, hget, ?_⟩
  intro entry hentry
  obtain ⟨j, hj, hje⟩ := List.getElem_of_mem hentry
  have hj1 : j < symbols.length := hlen ▸ hj
  have h := hget j hj1
  rw [List.getElem?_eq_getElem hj, hje] at h
  have h2 := Option.some.inj h
  rw [h2]
  split
  · exact Nat.mod_lt _ (by decide)
  · exact Nat.mod_lt _ (by decide)

end PredictMELT
